import Mathlib

/-!
Verification of the odpgenerator markdown-to-ODP converter
(`src/odpgenerator.py`).  The ODF element tree is shallowly embedded as the
inductive `Node`; the renderer methods and the `ODFPartialTree`
concatenation protocol are translated as pure functions over `List Node`,
with Python exceptions modelled by `Except`.
-/

/-- ODF output nodes, restricted to the element kinds the program creates or
inspects.  A `slide` is lpod's `odf_draw_page` (master-page and layout names
are not modelled: no behaviour of the program depends on them); a `frame` is
`draw:frame` with its presentation style, presentation class, size and
position; `textBox` is `draw:text-box`; `span` is `text:span` with an
optional style, its text and appended child elements. -/
inductive Node where
  | slide (name : String) (children : List Node)
  | frame (style : String) (presClass : String) (size : String × String)
      (pos : String × String) (children : List Node)
  | textBox (children : List Node)
  | para (style : Option String) (children : List Node)
  | span (style : Option String) (text : String) (children : List Node)
  | lineBreak
  | odfList (style : String) (children : List Node)
  | listItem (children : List Node)
  | link (href : String) (title : Option String) (text : String)


/-- Python `isinstance(e, odf_span)`. -/
def isSpan : Node → Bool
  | .span _ _ _ => true
  | _ => false

/-- Python `isinstance(e, odf_draw_page)`. -/
def isSlide : Node → Bool
  | .slide _ _ => true
  | _ => false

/-- Loop body of `wrap_spans`: `acc` holds the spans collected into the
currently open paragraph (`para` in the Python source), `none` when no
paragraph is open. -/
def wrapSpansGo : List Node → Option (List Node) → List Node
  | [], none => []
  | [], some ps => [Node.para none ps]
  | e :: rest, acc =>
    if isSpan e then
      wrapSpansGo rest (some ((acc.getD []) ++ [e]))
    else
      match acc with
      | none => e :: wrapSpansGo rest none
      | some ps => Node.para none ps :: e :: wrapSpansGo rest none

/-- Translation of `wrap_spans` (odpgenerator.py:53-70): wrap each maximal run of toplevel
`text:span` elements into a fresh paragraph. -/
def wrap_spans (odf_elements : List Node) : List Node :=
  wrapSpansGo odf_elements none

/-- Python exceptions that the translated code can raise. -/
inductive Err where
  | indexError
  | attributeError
  | unsupportedHeading
  deriving Repr, DecidableEq

/-- lpod's generic `element.append(child)`, iterated over a list of new
children.  Elements without a child list in this model are returned
unchanged (the program never appends to them). -/
def appendKids : Node → List Node → Node
  | .slide nm cs, new => .slide nm (cs ++ new)
  | .frame st pc sz ps cs, new => .frame st pc sz ps (cs ++ new)
  | .textBox cs, new => .textBox (cs ++ new)
  | .para s cs, new => .para s (cs ++ new)
  | .span s t cs, new => .span s t (cs ++ new)
  | .odfList s cs, new => .odfList s (cs ++ new)
  | .listItem cs, new => .listItem (cs ++ new)
  | .lineBreak, _ => .lineBreak
  | .link h t x, _ => .link h t x

mutual

/-- The loop at odpgenerator.py:89-94 restricted to one subtree: scan the
descendants of `n` in document (pre-)order for the first `draw:frame` with
`presentation_class == 'outline'`; on a hit, append `new` to the children of
the frame's first child (`child.get_children()[0]`, an `IndexError` when the
frame is childless) and rebuild the tree around it.  `none` means no outline
frame occurs in this subtree, so the scan continues. -/
def searchNode (new : List Node) : Node → Option (Except Err Node)
  | .frame st pc sz ps cs =>
    if pc = "outline" then
      some (match cs with
        | [] => .error .indexError
        | tb :: k => .ok (.frame st pc sz ps (appendKids tb new :: k)))
    else
      (searchList new cs).map (fun r => r.map (Node.frame st pc sz ps))
  | .slide nm cs => (searchList new cs).map (fun r => r.map (Node.slide nm))
  | .textBox cs => (searchList new cs).map (fun r => r.map Node.textBox)
  | .para s cs => (searchList new cs).map (fun r => r.map (Node.para s))
  | .span s t cs => (searchList new cs).map (fun r => r.map (Node.span s t))
  | .odfList s cs => (searchList new cs).map (fun r => r.map (Node.odfList s))
  | .listItem cs => (searchList new cs).map (fun r => r.map Node.listItem)
  | .lineBreak => none
  | .link _ _ _ => none

/-- Function `searchNode` lifted to sibling lists, keeping document order: the first
subtree containing an outline frame is the one that gets modified. -/
def searchList (new : List Node) : List Node → Option (Except Err (List Node))
  | [] => none
  | n :: rest =>
    match searchNode new n with
    | some r => some (r.map (fun n' => n' :: rest))
    | none => (searchList new rest).map (fun r => r.map (fun rest' => n :: rest'))

end

/-- The slide-redirect branch of `ODFPartialTree._add_child_elems`
(odpgenerator.py:87-103), entered when the tree's last element is a
`draw_page` and the fragment's first element is not: the fragment is
span-wrapped, then either appended into the first descendant outline frame's
inner container, or, when no outline frame exists, wrapped into a fresh
22×12 cm content frame at 2×5 cm with presentation class `outline` appended
to the slide. -/
def stickIntoLastSlide (tree elems : List Node) : Except Err (List Node) :=
  match tree.getLast? with
  | some (Node.slide nm cs) =>
    let welems := wrap_spans elems
    match searchList welems cs with
    | some (.ok cs') => .ok (tree.dropLast ++ [Node.slide nm cs'])
    | some (.error e) => .error e
    | none =>
      .ok (tree.dropLast ++ [Node.slide nm (cs ++
        [Node.frame "pr7" "outline" ("22cm", "12cm") ("2cm", "5cm")
          [Node.textBox welems]])])
  | _ => .ok (tree ++ elems)

/-- Translation of `ODFPartialTree._add_child_elems` (odpgenerator.py:82-105).  The Python
condition `len(self._elements) and isinstance(self._elements[-1],
odf_draw_page) and not isinstance(elems[0], odf_draw_page)` evaluates
`elems[0]` only after the first two conjuncts hold, so an empty `elems`
raises `IndexError` exactly when the tree is nonempty and ends in a page. -/
def addChildElems (tree elems : List Node) : Except Err (List Node) :=
  match tree.getLast? with
  | some last =>
    if isSlide last then
      match elems with
      | [] => .error .indexError
      | e :: _ => if isSlide e then .ok (tree ++ elems) else stickIntoLastSlide tree elems
    else .ok (tree ++ elems)
  | none => .ok (tree ++ elems)

/-- Translation of `ODFPartialTree._add_text` (odpgenerator.py:107-110): append one fresh
unstyled `text:span` carrying the given text. -/
def addText (tree : List Node) (text : String) : List Node :=
  tree ++ [Node.span none text []]

/-- The values handed to `ODFPartialTree.__add__`/`__iadd__` by the parser:
a raw string, another partial tree, or Python `None` (what the unsupported
render methods return). -/
inductive Frag where
  | str (s : String)
  | tree (elems : List Node)
  | pyNone

/-- Translation of `ODFPartialTree.__add__` (odpgenerator.py:112-118), as the element list
of the returned tree.  A non-string operand has its `_elements` attribute
read, which on `None` raises `AttributeError`. -/
def odfAdd (t : List Node) : Frag → Except Err (List Node)
  | .str s => .ok (addText t s)
  | .tree elems => addChildElems t elems
  | .pyNone => .error .attributeError

/-- Translation of `ODFPartialTree.__iadd__` (odpgenerator.py:120-125), as the element list
the tree holds afterwards. -/
def odfIAdd (t : List Node) : Frag → Except Err (List Node)
  | .str s => .ok (addText t s)
  | .tree elems => addChildElems t elems
  | .pyNone => .error .attributeError

/-- Python's `str.splitlines` restricted to `\n`-separated text: split at
every newline, without a trailing empty line for a terminating newline.
`acc` collects the characters of the current line in reverse. -/
def splitlinesGo : List Char → List Char → List (List Char)
  | [], acc => if acc.isEmpty then [] else [acc.reverse]
  | c :: rest, acc =>
    if c = '\n' then acc.reverse :: splitlinesGo rest []
    else splitlinesGo rest (c :: acc)

/-- Python `code.splitlines()` for the newline convention the program sees. -/
def splitlines (s : String) : List String :=
  (splitlinesGo s.data []).map List.asString

mutual

/-- lpod's `get_formatted_text`, simplified to the recursive concatenation
of the text content (only used for the display name of a slide, which no
further behaviour depends on). -/
def formattedText : Node → String
  | .slide _ cs => formattedTextL cs
  | .frame _ _ _ _ cs => formattedTextL cs
  | .textBox cs => formattedTextL cs
  | .para _ cs => formattedTextL cs
  | .span _ t cs => t ++ formattedTextL cs
  | .lineBreak => "\n"
  | .odfList _ cs => formattedTextL cs
  | .listItem cs => formattedTextL cs
  | .link _ _ t => t

def formattedTextL : List Node → String
  | [] => ""
  | n :: rest => formattedText n ++ formattedTextL rest

end

/-- Translation of `ODFRenderer.block_code` (odpgenerator.py:178-185): one paragraph with
style `ParagraphCodeStyle`; per source line one unstyled `text:span`
followed by one line break (the loop appends a break after every span, the
last one included). -/
def block_code (code : String) : List Node :=
  [Node.para (some "ParagraphCodeStyle")
    ((splitlines code).flatMap (fun line => [Node.span none line [], Node.lineBreak]))]

/-- Translation of `ODFRenderer.header` (odpgenerator.py:187-218): level 1 and 2 produce a
new draw page holding a span-wrapped title frame (level 1: 20×3 cm at
2×8 cm; level 2: 20×3 cm at 2×1 cm); any other level raises
`RuntimeError('Unsupported heading level: ...')`. -/
def header (text : List Node) (level : Nat) : Except Err (List Node) :=
  if level = 1 then
    .ok [Node.slide (formattedTextL text)
      [Node.frame "pr9" "title" ("20cm", "3cm") ("2cm", "8cm")
        [Node.textBox (wrap_spans text)]]]
  else if level = 2 then
    .ok [Node.slide (formattedTextL text)
      [Node.frame "pr6" "title" ("20cm", "3cm") ("2cm", "1cm")
        [Node.textBox (wrap_spans text)]]]
  else .error .unsupportedHeading

/-- Translation of `ODFRenderer.list_item` (odpgenerator.py:239-243). -/
def list_item (text : List Node) : List Node :=
  [Node.listItem (wrap_spans text)]

/-- Translation of `ODFRenderer.list` (odpgenerator.py:245-249). -/
def odfRenderList (body : List Node) (ordered : Bool) : List Node :=
  [Node.odfList (if ordered then "L6" else "L2") body]

/-- Translation of `ODFRenderer.paragraph` (odpgenerator.py:251-258): inline runs are kept
in a `text:span`, not promoted to a block paragraph. -/
def paragraph (text : List Node) : List Node :=
  [Node.span none "" text]

/-- Translation of `ODFRenderer.autolink` (odpgenerator.py:269-274). -/
def autolink (lnk : String) (is_email : Bool) : List Node :=
  [Node.link (if is_email then "mailto:" ++ lnk else lnk) none lnk]

/-- Translation of `ODFRenderer.link` (odpgenerator.py:276-278). -/
def odfRenderLink (lnk title content : String) : List Node :=
  [Node.link lnk (some title) content]

/-- Translation of `ODFRenderer.linebreak` (odpgenerator.py:307-308). -/
def linebreak : List Node :=
  [Node.lineBreak]

/-- Translation of `ODFRenderer.table` (odpgenerator.py:260-261): `pass`, i.e. `None`. -/
def table (_header _body : Frag) : Frag := .pyNone

/-- Translation of `ODFRenderer.table_row` (odpgenerator.py:263-264). -/
def table_row (_content : Frag) : Frag := .pyNone

/-- Translation of `ODFRenderer.table_cell` (odpgenerator.py:266-267). -/
def table_cell (_content : Frag) : Frag := .pyNone

/-- Translation of `ODFRenderer.image` (odpgenerator.py:304-305). -/
def image (_src _title _alt_text : String) : Frag := .pyNone

/-- Translation of `ODFRenderer.tag` (odpgenerator.py:310-311). -/
def tag (_html : String) : Frag := .pyNone

/-- Translation of `ODFRenderer.strikethrough` (odpgenerator.py:313-314). -/
def strikethrough (_text : Frag) : Frag := .pyNone

/-- The parse events the external markdown parser feeds to the renderer,
children already rendered (rendering is bottom-up). -/
inductive Tok where
  | header (text : List Node) (level : Nat)
  | blockCode (code : String)
  | paragraph (text : List Node)
  | list (body : List Node) (ordered : Bool)
  | listItem (text : List Node)
  | table (h b : Frag)
  | image (src title alt : String)
  | tag (html : String)
  | strikethrough (t : Frag)
  | rawText (s : String)

/-- Dispatch of one parse event to the corresponding render rule. -/
def renderTok : Tok → Except Err Frag
  | .header t l => (header t l).map Frag.tree
  | .blockCode c => .ok (.tree (block_code c))
  | .paragraph t => .ok (.tree (paragraph t))
  | .list b o => .ok (.tree (odfRenderList b o))
  | .listItem t => .ok (.tree (list_item t))
  | .table h b => .ok (table h b)
  | .image s t a => .ok (image s t a)
  | .tag h => .ok (tag h)
  | .strikethrough t => .ok (strikethrough t)
  | .rawText s => .ok (.str s)

/-- mistune's output loop: start from `renderer.placeholder()` (an empty
partial tree) and fold every rendered fragment in with `+=`; a raised
exception aborts the run. -/
def renderLoop (acc : List Node) : List Tok → Except Err (List Node)
  | [] => .ok acc
  | t :: ts => do
    let f ← renderTok t
    let acc' ← odfIAdd acc f
    renderLoop acc' ts

/-- Composition `mkdown.render(markdown.read()).get()`. -/
def renderTokens (toks : List Tok) : Except Err (List Node) :=
  renderLoop [] toks

/-- Python `list.insert` semantics of lpod/lxml child insertion: a negative
position counts from the end, out-of-range positions clamp. -/
def pyInsert (l : List Node) (p : Int) (x : Node) : List Node :=
  let n : Int := l.length
  let idx : Int := if p < 0 then max 0 (n + p) else min p n
  l.take idx.toNat ++ x :: l.drop idx.toNat

/-- Anchor resolution at odpgenerator.py:341-342: a negative `--page`
argument is made end-relative against the template's child count. -/
def resolvePage (templateLen : Nat) (page : Int) : Int :=
  if page < 0 then (templateLen : Int) + page else page

/-- The insertion loop at odpgenerator.py:344-345: the `index`-th rendered
top-level node is inserted at child position `page + index`. -/
def insertLoop (base : Int) : List Node → Nat → List Node → List Node
  | doc, _, [] => doc
  | doc, i, p :: ps => insertLoop base (pyInsert doc (base + i) p) (i + 1) ps

/-- Placement of the rendered top-level nodes into the template body. -/
def insertPages (template : List Node) (anchor : Int) (pages : List Node) : List Node :=
  insertLoop (resolvePage template.length anchor) template 0 pages

/-- The main script (odpgenerator.py:340-347): render the whole input, then
insert the resulting top-level nodes into the template at the resolved
anchor.  The document to be saved exists only when rendering succeeded; a
raised exception reaches toplevel before `presentation.save` runs. -/
def odpMain (template : List Node) (anchor : Int) (toks : List Tok) :
    Except Err (List Node) :=
  (renderTokens toks).map (insertPages template anchor)

/-- A `draw:frame` with presentation class `outline`. -/
def isOutlineFrame : Node → Bool
  | .frame _ pc _ _ _ => pc == "outline"
  | _ => false

mutual

/-- Observer following the spec's words: does the subtree rooted at `n`
contain a content frame tagged with presentation role `outline` (the node
itself included)? -/
def containsOutline : Node → Bool
  | .frame _ pc _ _ cs => pc == "outline" || containsOutlineL cs
  | .slide _ cs => containsOutlineL cs
  | .textBox cs => containsOutlineL cs
  | .para _ cs => containsOutlineL cs
  | .span _ _ cs => containsOutlineL cs
  | .odfList _ cs => containsOutlineL cs
  | .listItem cs => containsOutlineL cs
  | .lineBreak => false
  | .link _ _ _ => false

/-- Predicate `containsOutline` over a sibling list. -/
def containsOutlineL : List Node → Bool
  | [] => false
  | n :: rest => containsOutline n || containsOutlineL rest

end

mutual

theorem searchNode_of_no_outline (new : List Node) (n : Node)
    (h : containsOutline n = false) : searchNode new n = none := by
  cases n with
  | frame st pc sz ps cs =>
    simp only [containsOutline, Bool.or_eq_false_iff, beq_eq_false_iff_ne, ne_eq] at h
    simp [searchNode, h.1, searchList_of_no_outline new cs h.2]
  | slide nm cs =>
    simp only [containsOutline] at h
    simp [searchNode, searchList_of_no_outline new cs h]
  | textBox cs =>
    simp only [containsOutline] at h
    simp [searchNode, searchList_of_no_outline new cs h]
  | para s cs =>
    simp only [containsOutline] at h
    simp [searchNode, searchList_of_no_outline new cs h]
  | span s t cs =>
    simp only [containsOutline] at h
    simp [searchNode, searchList_of_no_outline new cs h]
  | odfList s cs =>
    simp only [containsOutline] at h
    simp [searchNode, searchList_of_no_outline new cs h]
  | listItem cs =>
    simp only [containsOutline] at h
    simp [searchNode, searchList_of_no_outline new cs h]
  | lineBreak => simp [searchNode]
  | link h t x => simp [searchNode]

theorem searchList_of_no_outline (new : List Node) (l : List Node)
    (h : containsOutlineL l = false) : searchList new l = none := by
  cases l with
  | nil => simp [searchList]
  | cons n rest =>
    simp only [containsOutlineL, Bool.or_eq_false_iff] at h
    simp [searchList, searchNode_of_no_outline new n h.1,
      searchList_of_no_outline new rest h.2]

end

/-- Scanning past an outline-free prefix, the first outline frame in
document order is the one modified. -/
theorem searchList_found (new : List Node) (pre post : List Node)
    (st : String) (sz ps : String × String) (tb : Node) (k : List Node)
    (hpre : containsOutlineL pre = false) :
    searchList new (pre ++ Node.frame st "outline" sz ps (tb :: k) :: post)
      = some (.ok (pre ++
          Node.frame st "outline" sz ps (appendKids tb new :: k) :: post)) := by
  induction pre with
  | nil => simp [searchList, searchNode, Except.map]
  | cons n rest ih =>
    simp only [containsOutlineL, Bool.or_eq_false_iff] at hpre
    simp [searchList, searchNode_of_no_outline new n hpre.1, ih hpre.2, Except.map]

theorem wrapSpansGo_span_run (run : List Node) (hrun : ∀ n ∈ run, isSpan n = true) :
    ∀ acc rest, wrapSpansGo (run ++ rest) (some acc)
      = wrapSpansGo rest (some (acc ++ run)) := by
  induction run with
  | nil => simp
  | cons r rs ih =>
    intro acc rest
    have hr : isSpan r = true := hrun r (List.mem_cons_self r rs)
    have hrs : ∀ n ∈ rs, isSpan n = true := fun n hn => hrun n (List.mem_cons_of_mem r hn)
    simp [wrapSpansGo, hr, ih hrs]

/-- The head of `rest` is not a span (or `rest` is empty). -/
def headNotSpan : List Node → Prop
  | [] => True
  | r :: _ => isSpan r = false

theorem wrapSpansGo_flush (rest : List Node) (h : headNotSpan rest) (ps : List Node) :
    wrapSpansGo rest (some ps) = Node.para none ps :: wrapSpansGo rest none := by
  cases rest with
  | nil => simp [wrapSpansGo]
  | cons r rs =>
    simp only [headNotSpan] at h
    simp [wrapSpansGo, h]

/-- Claim C7: The Span Wrapper on any ordered node sequence: empty input gives
empty output; a non-Span head is passed through untouched in place; a
maximal run of one or more consecutive Span nodes (maximality: what follows
is empty or starts with a non-Span) becomes exactly one fresh Paragraph node
wrapping the run in original order, and the rest is processed
independently.  These three equations characterise `wrap_spans` completely,
so node count changes only by the introduced Paragraph wrappers and every
non-Span node keeps its relative position. -/
theorem wrap_spans_runs :
    wrap_spans [] = [] ∧
    (∀ e rest, isSpan e = false →
      wrap_spans (e :: rest) = e :: wrap_spans rest) ∧
    (∀ run rest, run ≠ [] → (∀ n ∈ run, isSpan n = true) → headNotSpan rest →
      wrap_spans (run ++ rest) = Node.para none run :: wrap_spans rest) := by
  refine ⟨rfl, ?_, ?_⟩
  · intro e rest he
    simp [wrap_spans, wrapSpansGo, he]
  · intro run rest hne hrun hrest
    cases run with
    | nil => exact absurd rfl hne
    | cons r rs =>
      have hr : isSpan r = true := hrun r (List.mem_cons_self r rs)
      have hrs : ∀ n ∈ rs, isSpan n = true := fun n hn => hrun n (List.mem_cons_of_mem r hn)
      have h1 : wrap_spans ((r :: rs) ++ rest) = wrapSpansGo (rs ++ rest) (some [r]) := by
        simp [wrap_spans, wrapSpansGo, hr]
      rw [h1, wrapSpansGo_span_run rs hrs, wrapSpansGo_flush rest hrest]
      rfl

/-- Witness for C7: one span run followed by a line break. -/
theorem wrap_spans_runs_witness :
    wrap_spans [Node.span none "a" [], Node.lineBreak]
      = [Node.para none [Node.span none "a" []], Node.lineBreak] := by
  exact (wrap_spans_runs.2.2 [Node.span none "a" []] [Node.lineBreak]
    (by simp) (by simp [isSpan]) (by simp [headNotSpan, isSpan])).trans rfl

theorem wrapSpansGo_no_span (l : List Node) :
    ∀ acc, ∀ n ∈ wrapSpansGo l acc, isSpan n = false := by
  induction l with
  | nil =>
    intro acc n hn
    cases acc with
    | none => simp [wrapSpansGo] at hn
    | some ps =>
      simp only [wrapSpansGo, List.mem_singleton] at hn
      subst hn; rfl
  | cons e rest ih =>
    intro acc n hn
    cases he : isSpan e with
    | true =>
      have hrw : wrapSpansGo (e :: rest) acc
          = wrapSpansGo rest (some ((acc.getD []) ++ [e])) := by
        simp [wrapSpansGo, he]
      rw [hrw] at hn
      exact ih _ n hn
    | false =>
      cases acc with
      | none =>
        have hrw : wrapSpansGo (e :: rest) none = e :: wrapSpansGo rest none := by
          simp [wrapSpansGo, he]
        rw [hrw] at hn
        rcases List.mem_cons.mp hn with h | h
        · subst h; exact he
        · exact ih none n h
      | some ps =>
        have hrw : wrapSpansGo (e :: rest) (some ps)
            = Node.para none ps :: e :: wrapSpansGo rest none := by
          simp [wrapSpansGo, he]
        rw [hrw] at hn
        rcases List.mem_cons.mp hn with h | h
        · subst h; rfl
        · rcases List.mem_cons.mp h with h2 | h2
          · subst h2; exact he
          · exact ih none n h2

theorem wrap_spans_of_no_span (l : List Node) (h : ∀ n ∈ l, isSpan n = false) :
    wrap_spans l = l := by
  induction l with
  | nil => rfl
  | cons e rest ih =>
    have he : isSpan e = false := h e (List.mem_cons_self e rest)
    have hrest : ∀ n ∈ rest, isSpan n = false := fun n hn => h n (List.mem_cons_of_mem e hn)
    simp [wrap_spans, wrapSpansGo, he] at ih ⊢
    exact ih hrest

/-- Claim C8: The Span Wrapper is idempotent, and on any sequence without
top-level Span nodes (such as its own output) it is the identity. -/
theorem wrap_spans_idempotent :
    (∀ x, wrap_spans (wrap_spans x) = wrap_spans x) ∧
    (∀ l, (∀ n ∈ l, isSpan n = false) → wrap_spans l = l) := by
  refine ⟨?_, wrap_spans_of_no_span⟩
  intro x
  exact wrap_spans_of_no_span _ (wrapSpansGo_no_span x none)

/-- Witness for C8: a wrapped sequence is left unchanged. -/
theorem wrap_spans_idempotent_witness :
    wrap_spans (wrap_spans [Node.span none "a" []]) = wrap_spans [Node.span none "a" []] ∧
    wrap_spans [Node.lineBreak] = [Node.lineBreak] :=
  ⟨wrap_spans_idempotent.1 [Node.span none "a" []],
   wrap_spans_idempotent.2 [Node.lineBreak] (by simp [isSpan])⟩

/-- Claim C1: Merging a nonempty fragment whose first node is not a Slide into
a tree whose last top-level node is a Slide redirects the span-wrapped
fragment into that Slide: into the inner container of the first descendant
outline frame when one exists (first in document order: everything before it
is outline-free), or into a freshly appended 22×12 cm content frame at
2×5 cm with role `outline` otherwise.  In every other case the fragment's
nodes become toplevel siblings. -/
theorem addChildElems_slide_redirect :
    (∀ (ts : List Node) (nm : String) (pre post : List Node) (st : String)
        (sz ps : String × String) (tb : Node) (k : List Node) (e : Node) (rest : List Node),
        containsOutlineL pre = false → isSlide e = false →
        addChildElems
            (ts ++ [Node.slide nm (pre ++ Node.frame st "outline" sz ps (tb :: k) :: post)])
            (e :: rest)
          = .ok (ts ++ [Node.slide nm (pre ++ Node.frame st "outline" sz ps
              (appendKids tb (wrap_spans (e :: rest)) :: k) :: post)])) ∧
    (∀ (ts : List Node) (nm : String) (cs : List Node) (e : Node) (rest : List Node),
        containsOutlineL cs = false → isSlide e = false →
        addChildElems (ts ++ [Node.slide nm cs]) (e :: rest)
          = .ok (ts ++ [Node.slide nm (cs ++
              [Node.frame "pr7" "outline" ("22cm", "12cm") ("2cm", "5cm")
                [Node.textBox (wrap_spans (e :: rest))]])])) ∧
    (∀ (t : List Node) (e : Node) (rest : List Node),
        ((t.getLast?.all fun l => !isSlide l) = true ∨ isSlide e = true) →
        addChildElems t (e :: rest) = .ok (t ++ e :: rest)) := by
  refine ⟨?_, ?_, ?_⟩
  · intro ts nm pre post st sz ps tb k e rest hpre he
    have hsearch := searchList_found (wrap_spans (e :: rest)) pre post st sz ps tb k hpre
    simp only [isSlide] at he
    simp [addChildElems, stickIntoLastSlide, isSlide, he, hsearch]
  · intro ts nm cs e rest hcs he
    have hsearch := searchList_of_no_outline (wrap_spans (e :: rest)) cs hcs
    simp only [isSlide] at he
    simp [addChildElems, stickIntoLastSlide, isSlide, he, hsearch]
  · intro t e rest h
    rcases List.eq_nil_or_concat t with rfl | ⟨ts, x, rfl⟩
    · simp [addChildElems]
    · rcases h with h | h
      · have hx : isSlide x = false := by
          simpa using h
        simp [addChildElems, hx]
      · cases hx : isSlide x with
        | false => simp [addChildElems, hx]
        | true => simp [addChildElems, hx, h]

/-- Witness for C1: a span merged into a slide that already holds an outline
frame lands, span-wrapped, inside that frame's text box. -/
theorem addChildElems_slide_redirect_witness :
    addChildElems
        [Node.slide "s" [Node.frame "pr0" "outline" ("1cm", "1cm") ("0cm", "0cm")
          [Node.textBox []]]]
        [Node.span none "x" []]
      = .ok [Node.slide "s" [Node.frame "pr0" "outline" ("1cm", "1cm") ("0cm", "0cm")
          [Node.textBox [Node.para none [Node.span none "x" []]]]]] :=
  (addChildElems_slide_redirect.1 [] "s" [] [] "pr0" ("1cm", "1cm") ("0cm", "0cm")
    (Node.textBox []) [] (Node.span none "x" []) [] rfl rfl).trans rfl

/-- Claim C4 (code bug): Merging an empty fragment: when the tree is empty or does not
end in a Slide the merge is a no-op, but when the last top-level node is a
Slide the guard at odpgenerator.py:85 evaluates `elems[0]` on the empty list
and raises `IndexError`, contradicting the spec's unconditional
"empty fragment ⇒ no-op". -/
theorem addChildElems_empty_fragment :
    addChildElems [Node.slide "page1" []] [] = .error .indexError ∧
    addChildElems [Node.span none "x" []] [] = .ok [Node.span none "x" []] ∧
    addChildElems ([] : List Node) [] = .ok [] :=
  ⟨rfl, rfl, rfl⟩

/-- Claim C9: Appending a raw string through either concatenation operator
always appends exactly one unstyled childless Span carrying that text, for
every tree — also one whose last node is a Slide, since the string branch
never consults the tree's trailing node. -/
theorem add_string_appends_span :
    ∀ (t : List Node) (s : String),
      odfAdd t (.str s) = .ok (t ++ [Node.span none s []]) ∧
      odfIAdd t (.str s) = .ok (t ++ [Node.span none s []]) :=
  fun _ _ => ⟨rfl, rfl⟩

/-- Claim C10: The non-mutating `+` and the in-place `+=` agree: on every tree
and every operand (string, fragment or `None`) they produce the same element
sequence (or raise the same exception). -/
theorem add_iadd_agree :
    ∀ (t : List Node) (f : Frag), odfAdd t f = odfIAdd t f := by
  intro t f
  cases f <;> rfl

/-- A `text:line-break` node. -/
def isBreak : Node → Bool
  | .lineBreak => true
  | _ => false

/-- The children of the single toplevel paragraph of a fragment. -/
def paraKids : List Node → List Node
  | [Node.para _ cs] => cs
  | _ => []

/-- Counterexample for C2: On source lines `["a","b","c"]` the code-block
paragraph holds 3 line breaks, not 2: the loop at odpgenerator.py:180-184
appends a break after every span, the last included; and the line spans
carry no style of their own (`TextCodeStyle` is never set on them). -/
theorem block_code_cex :
    (paraKids (block_code "a\nb\nc")).countP isBreak ≠ 2 ∧
    (paraKids (block_code "a\nb\nc")).head? = some (Node.span none "a" []) := by
  refine ⟨by decide, rfl⟩

/-- Claim C2 as amended: A code block with lines `["a","b","c"]` renders as
exactly one Paragraph styled `ParagraphCodeStyle` containing exactly 3
unstyled Span nodes (one per source line; the code style sits on the
paragraph, not the spans) and exactly 3 line-break nodes, one placed after
every line span, the last one included. -/
theorem block_code_render :
    block_code "a\nb\nc"
      = [Node.para (some "ParagraphCodeStyle")
          [Node.span none "a" [], Node.lineBreak,
           Node.span none "b" [], Node.lineBreak,
           Node.span none "c" [], Node.lineBreak]] := rfl

/-- Claim C5 (code bug): The unsupported construct handlers all return Python `None`
rather than an empty partial tree; the spec's required silent drop fails at
the very next concatenation, where `__add__`/`__iadd__` read
`None._elements` and raise `AttributeError`, aborting the conversion. -/
theorem unsupported_constructs_abort :
    table (.tree []) (.tree []) = Frag.pyNone ∧
    table_row (.tree []) = Frag.pyNone ∧
    table_cell (.tree []) = Frag.pyNone ∧
    image "x.png" "t" "alt" = Frag.pyNone ∧
    tag "<br>" = Frag.pyNone ∧
    strikethrough (.tree []) = Frag.pyNone ∧
    odfIAdd [] (table (.tree []) (.tree [])) = .error .attributeError ∧
    odfAdd [Node.span none "x" []] (tag "<br>") = .error .attributeError :=
  ⟨rfl, rfl, rfl, rfl, rfl, rfl, rfl, rfl⟩

theorem pyInsert_in_range (l : List Node) (p : Int) (x : Node)
    (h0 : 0 ≤ p) (hlen : p.toNat ≤ l.length) :
    pyInsert l p x = l.take p.toNat ++ x :: l.drop p.toNat := by
  unfold pyInsert
  have hnot : ¬ p < 0 := not_lt.mpr h0
  have hmin : min p (l.length : Int) = p := min_eq_left (by omega)
  simp [hnot, hmin]

theorem insertLoop_spec (base : Int) (pages : List Node) :
    ∀ (doc : List Node) (i : Nat), 0 ≤ base + i → (base + i).toNat ≤ doc.length →
    insertLoop base doc i pages
      = doc.take (base + i).toNat ++ pages ++ doc.drop (base + i).toNat := by
  induction pages with
  | nil =>
    intro doc i _ _
    simp [insertLoop, List.take_append_drop]
  | cons p ps ih =>
    intro doc i h0 hlen
    rw [insertLoop, pyInsert_in_range doc (base + i) p h0 hlen]
    have h0' : 0 ≤ base + ((i + 1 : Nat) : Int) := by push_cast; omega
    have hlen' : (base + ((i + 1 : Nat) : Int)).toNat
        ≤ (doc.take (base + i).toNat ++ p :: doc.drop (base + i).toNat).length := by
      simp only [List.length_append, List.length_cons, List.length_take, List.length_drop]
      push_cast
      omega
    rw [ih _ _ h0' hlen']
    have hmm : (base + ((i + 1 : Nat) : Int)).toNat = (base + i).toNat + 1 := by
      push_cast; omega
    rw [hmm]
    have hlm : (doc.take (base + i).toNat).length = (base + i).toNat := by
      rw [List.length_take]; omega
    have ht : (doc.take (base + i).toNat ++ p :: doc.drop (base + i).toNat).take
          ((base + i).toNat + 1)
        = doc.take (base + i).toNat ++ [p] := by
      have h := @List.take_append Node (doc.take (base + i).toNat)
        (p :: doc.drop (base + i).toNat) 1
      rw [hlm] at h
      simpa using h
    have hd : (doc.take (base + i).toNat ++ p :: doc.drop (base + i).toNat).drop
          ((base + i).toNat + 1)
        = doc.drop (base + i).toNat := by
      have h := @List.drop_append Node (doc.take (base + i).toNat)
        (p :: doc.drop (base + i).toNat) 1
      rw [hlm] at h
      simpa using h
    rw [ht, hd]
    simp

theorem insertPages_eq_of_neg (template pages : List Node) (a : Int)
    (ha : a < 0) (h0 : 0 ≤ (template.length : Int) + a) :
    insertPages template a pages
      = template.take ((template.length : Int) + a).toNat ++ pages
          ++ template.drop ((template.length : Int) + a).toNat := by
  have h1 : 0 ≤ (template.length : Int) + a + ((0 : Nat) : Int) := by push_cast; omega
  have h2 : ((template.length : Int) + a + ((0 : Nat) : Int)).toNat ≤ template.length := by
    push_cast; omega
  have hspec := insertLoop_spec ((template.length : Int) + a) pages template 0 h1 h2
  simp only [Nat.cast_zero, add_zero] at hspec
  unfold insertPages resolvePage
  rw [if_pos ha]
  exact hspec

theorem insertPages_eq_of_nonneg (template pages : List Node) (a : Int)
    (h0 : 0 ≤ a) (hle : a ≤ (template.length : Int)) :
    insertPages template a pages
      = template.take a.toNat ++ pages ++ template.drop a.toNat := by
  have h1 : 0 ≤ a + ((0 : Nat) : Int) := by push_cast; omega
  have h2 : (a + ((0 : Nat) : Int)).toNat ≤ template.length := by push_cast; omega
  have hspec := insertLoop_spec a pages template 0 h1 h2
  simp only [Nat.cast_zero, add_zero] at hspec
  unfold insertPages resolvePage
  rw [if_neg (not_lt.mpr h0)]
  exact hspec

/-- Counterexample for C3: With a 2-slide template and anchor `-1`, the
single rendered page is inserted at index 1, i.e. before the last existing
slide — not appended at index `N = 2` as the claim states. -/
theorem insertPages_anchor_cex :
    insertPages [Node.slide "s1" [], Node.slide "s2" []] (-1) [Node.slide "p" []]
      ≠ [Node.slide "s1" [], Node.slide "s2" []] ++ [Node.slide "p" []] := by
  intro h
  rw [show insertPages [Node.slide "s1" [], Node.slide "s2" []] (-1) [Node.slide "p" []]
      = [Node.slide "s1" [], Node.slide "p" [], Node.slide "s2" []] from rfl] at h
  simp at h

/-- Claim C3 as amended: For a template with `N` top-level children and anchor
`a`: when `a < 0` the effective insertion index is `N + a` — so anchor `-1`
inserts the group starting at index `N - 1`, just before the last existing
slide, not at `N` — and anchor `0` inserts before all existing slides; in
every in-range case the rendered nodes are inserted in original order at
consecutive indices, so the group appears contiguously. -/
theorem insertPages_anchor :
    (∀ (template pages : List Node) (a : Int),
      a < 0 → 0 ≤ (template.length : Int) + a →
      insertPages template a pages
        = template.take ((template.length : Int) + a).toNat ++ pages
            ++ template.drop ((template.length : Int) + a).toNat) ∧
    (∀ (template pages : List Node) (a : Int),
      0 ≤ a → a ≤ (template.length : Int) →
      insertPages template a pages
        = template.take a.toNat ++ pages ++ template.drop a.toNat) ∧
    (∀ (template pages : List Node),
      insertPages template 0 pages = pages ++ template) := by
  refine ⟨insertPages_eq_of_neg, insertPages_eq_of_nonneg, ?_⟩
  intro template pages
  have h := insertPages_eq_of_nonneg template pages 0 le_rfl (by positivity)
  simpa using h

/-- Witness for C3: anchor `-1` against a 2-slide template lands the new
page between the two existing slides. -/
theorem insertPages_anchor_witness :
    insertPages [Node.slide "s1" [], Node.slide "s2" []] (-1) [Node.slide "p" []]
      = [Node.slide "s1" [], Node.slide "p" [], Node.slide "s2" []] :=
  (insertPages_anchor.1 [Node.slide "s1" [], Node.slide "s2" []] [Node.slide "p" []]
    (-1) (by decide) (by decide)).trans rfl

theorem except_error_bind {α β : Type} (e : Err) (f : α → Except Err β) :
    ((Except.error e : Except Err α) >>= f) = Except.error e := rfl

theorem except_ok_bind {α β : Type} (a : α) (f : α → Except Err β) :
    ((Except.ok a : Except Err α) >>= f) = f a := rfl

theorem renderLoop_abort (txt : List Node) (lvl : Nat) (hlvl : 3 ≤ lvl) :
    ∀ (pre post : List Tok) (acc : List Node),
      ∃ e, renderLoop acc (pre ++ Tok.header txt lvl :: post) = .error e := by
  intro pre
  induction pre with
  | nil =>
    intro post acc
    refine ⟨.unsupportedHeading, ?_⟩
    have h1 : lvl ≠ 1 := by omega
    have h2 : lvl ≠ 2 := by omega
    simp [renderLoop, renderTok, header, h1, h2, Except.map, except_error_bind]
  | cons t ts ih =>
    intro post acc
    simp only [List.cons_append, renderLoop]
    cases hr : renderTok t with
    | error e => exact ⟨e, by simp [hr, except_error_bind]⟩
    | ok f =>
      cases ha : odfIAdd acc f with
      | error e => exact ⟨e, by simp [hr, ha, except_ok_bind, except_error_bind]⟩
      | ok acc' =>
        obtain ⟨e, he⟩ := ih post acc'
        exact ⟨e, by simp [hr, ha, he, except_ok_bind]⟩

/-- Claim C6: A heading of level ≥ 3 makes the header rule raise the
unsupported-construct error, and wherever such a heading occurs in the
input, the whole conversion aborts with an error so the program never
reaches the save step: `odpMain` yields no output document. -/
theorem heading_level3_fatal :
    (∀ (txt : List Node) (lvl : Nat), 3 ≤ lvl →
      renderTok (Tok.header txt lvl) = .error .unsupportedHeading) ∧
    (∀ (template : List Node) (anchor : Int) (pre post : List Tok)
        (txt : List Node) (lvl : Nat), 3 ≤ lvl →
      ∃ e, odpMain template anchor (pre ++ Tok.header txt lvl :: post) = .error e) := by
  constructor
  · intro txt lvl h
    have h1 : lvl ≠ 1 := by omega
    have h2 : lvl ≠ 2 := by omega
    simp [renderTok, header, h1, h2, Except.map]
  · intro template anchor pre post txt lvl h
    obtain ⟨e, he⟩ := renderLoop_abort txt lvl h pre post []
    exact ⟨e, by simp [odpMain, renderTokens, he, Except.map]⟩

/-- Witness for C6: a level-3 heading as the whole input. -/
theorem heading_level3_fatal_witness :
    renderTok (Tok.header [] 3) = .error .unsupportedHeading ∧
    ∃ e, odpMain [] (-1) [Tok.header [] 3] = .error e :=
  ⟨heading_level3_fatal.1 [] 3 (by decide),
   heading_level3_fatal.2 [] (-1) [] [] [] 3 (by decide)⟩
